import Mathlib

/-!
Verification development for the ProofPilot DOCX generator
(`src/backend/utils/docx-generator.js`).

The JavaScript renderer is shallowly embedded here.  Strings are Lean
`String`s, but every operation the source performs on them (`trim`,
`startsWith`, `slice`, `split`, the few regular expressions) is
re-implemented as a structural function on `List Char`, so that every
definition evaluates inside the kernel.  Regular expressions in the source
are all of the simple star-delimiter / separator-row kind; each one is
modelled by an explicit scanner whose determinism matches the regex
engine's leftmost-match, greedy behaviour (greediness is degenerate here
because `[^*]+` can never absorb a `*`).

Recursions that consume a dynamic number of lines or characters
(the `while` loops of `renderMarkdown`, and repeated regex splitting)
are written with an explicit fuel parameter; the public wrappers supply
fuel equal to the input length, which one-line-per-step consumption makes
sufficient, and the fuel-zero branches are unreachable from the wrappers.
-/

namespace DocxGen

/-! ## Brand colors (source lines 39-45) -/

def ELECTRIC_BLUE : String := "0051FF"
def DARK_BLUE     : String := "00184D"
def NEON_GREEN    : String := "C8FF00"
def BLACK         : String := "000000"
def LIGHT_GRAY    : String := "F4F4F4"
def MEDIUM_GRAY   : String := "666666"
def WHITE         : String := "FFFFFF"

/-! ## Status markers skipped by the scanner (source lines 56-59) -/

def STATUS_MARKERS : List String :=
  ["Pulling", "Fetching", "Researching", "Building", "Loading",
   "Analyzing", "Computing", "Gathering", "Checking"]

/-! ## Character-level string primitives

JavaScript string operations, modelled structurally on `List Char`. -/

/-- `listStarts p cs` is `true` iff `p` is a prefix of `cs`
(JavaScript `cs.startsWith(p)`). -/
def listStarts : List Char → List Char → Bool
  | [], _ => true
  | _ :: _, [] => false
  | p :: ps, c :: cs => p == c && listStarts ps cs

/-- JavaScript `s.startsWith(p)`. -/
def jsStarts (s p : String) : Bool := listStarts p.toList s.toList

/-- Remove leading and trailing whitespace from a character list. -/
def trimChars (cs : List Char) : List Char :=
  ((cs.dropWhile Char.isWhitespace).reverse.dropWhile Char.isWhitespace).reverse

/-- JavaScript `s.trim()`. -/
def jsTrim (s : String) : String := String.mk (trimChars s.toList)

/-- JavaScript `s.slice(n)` for a nonnegative `n`. -/
def jsDrop (s : String) (n : Nat) : String := String.mk (s.toList.drop n)

/-- `sliceDrop cs a b` drops `a` characters at the front and `b` at the
back: JavaScript `cs.slice(a, -b)`. -/
def sliceDrop (cs : List Char) (a b : Nat) : List Char :=
  (cs.drop a).take (cs.length - a - b)

/-- Leftmost occurrence of `sep` in a character list: `some (pre, post)`
with the input equal to `pre ++ sep ++ post`, `pre` shortest possible. -/
def findSep (sep : List Char) : List Char → Option (List Char × List Char)
  | [] => none
  | c :: rest =>
    if listStarts sep (c :: rest) then some ([], (c :: rest).drop sep.length)
    else
      match findSep sep rest with
      | some (pre, post) => some (c :: pre, post)
      | none => none

/-- `true` iff `sep` occurs somewhere in `cs` (JavaScript `cs.includes(sep)`
for a non-empty `sep`). -/
def containsSeq (sep cs : List Char) : Bool := (findSep sep cs).isSome

/-- Fueled splitting on a separator sequence; each step removes at least
one character when `sep` is non-empty, so fuel `cs.length` suffices. -/
def splitSeqF (sep : List Char) : Nat → List Char → List (List Char)
  | 0, cs => [cs]
  | fuel + 1, cs =>
    match findSep sep cs with
    | none => [cs]
    | some (pre, post) => pre :: splitSeqF sep fuel post

/-- JavaScript `s.split(sep)` for a non-empty string separator. -/
def jsSplit (s sep : String) : List String :=
  (splitSeqF sep.toList s.toList.length s.toList).map String.mk

/-! ## Inline emphasis scanning (source lines 65-108)

The source splits on `/(\*\*[^*]+\*\*)/` and `/(\*[^*]+\*)/` with the
separators kept (capturing groups).  Because `[^*]+` can never match a
`*`, the regex engine's greedy backtracking is deterministic: a match at a
position exists iff the delimiters enclose the maximal non-star run
starting there. -/

/-- Try to match `\*\*[^*]+\*\*` at the head of the list; on success
return the inner run and the rest of the input. -/
def tryBoldAt (cs : List Char) : Option (List Char × List Char) :=
  match cs with
  | '*' :: '*' :: rest =>
    let run := rest.takeWhile (fun c => c != '*')
    let tail := rest.dropWhile (fun c => c != '*')
    if run.isEmpty then none
    else
      match tail with
      | '*' :: '*' :: post => some (run, post)
      | _ => none
  | _ => none

/-- Leftmost match of `\*\*[^*]+\*\*`: `some (pre, run, post)` decomposes
the input as `pre ++ "**" ++ run ++ "**" ++ post`. -/
def findBold : List Char → Option (List Char × List Char × List Char)
  | [] => none
  | c :: rest =>
    match tryBoldAt (c :: rest) with
    | some (run, post) => some ([], run, post)
    | none =>
      match findBold rest with
      | some (pre, run, post) => some (c :: pre, run, post)
      | none => none

/-- Fueled `text.split(/(\*\*[^*]+\*\*)/)`: pieces and kept separators,
exactly as the JavaScript split produces them. -/
def splitBoldF : Nat → List Char → List (List Char)
  | 0, cs => [cs]
  | fuel + 1, cs =>
    match findBold cs with
    | none => [cs]
    | some (pre, run, post) =>
      pre :: ('*' :: '*' :: (run ++ ['*', '*'])) :: splitBoldF fuel post

def splitBold (cs : List Char) : List (List Char) := splitBoldF cs.length cs

/-- Try to match `\*[^*]+\*` at the head of the list. -/
def tryItalicAt (cs : List Char) : Option (List Char × List Char) :=
  match cs with
  | '*' :: rest =>
    let run := rest.takeWhile (fun c => c != '*')
    let tail := rest.dropWhile (fun c => c != '*')
    if run.isEmpty then none
    else
      match tail with
      | '*' :: post => some (run, post)
      | _ => none
  | _ => none

/-- Leftmost match of `\*[^*]+\*`. -/
def findItalic : List Char → Option (List Char × List Char × List Char)
  | [] => none
  | c :: rest =>
    match tryItalicAt (c :: rest) with
    | some (run, post) => some ([], run, post)
    | none =>
      match findItalic rest with
      | some (pre, run, post) => some (c :: pre, run, post)
      | none => none

/-- Fueled `part.split(/(\*[^*]+\*)/)`. -/
def splitItalicF : Nat → List Char → List (List Char)
  | 0, cs => [cs]
  | fuel + 1, cs =>
    match findItalic cs with
    | none => [cs]
    | some (pre, run, post) =>
      pre :: ('*' :: (run ++ ['*'])) :: splitItalicF fuel post

def splitItalic (cs : List Char) : List (List Char) := splitItalicF cs.length cs

/-! ## TextRun and parseInline (source lines 65-108) -/

/-- A docx `TextRun` as the source constructs it: the text together with
the styling attributes that vary between construction sites. -/
structure TextRun where
  text : String
  bold : Bool
  italic : Bool
  color : String
  size : Nat
  font : String
deriving DecidableEq, Repr

/-- The option bag accepted by `parseInline`; fields default exactly as in
the source (`color = BLACK, size = 22, font = "Calibri"`, plain face). -/
structure InlineOpts where
  color : String
  size : Nat
  font : String
  bold : Bool
  italic : Bool
deriving DecidableEq, Repr

/-- `parseInline`'s defaults, also the options every body-text call site
passes (`{ size: 22 }` merged with the defaults). -/
def bodyOpts : InlineOpts := ⟨BLACK, 22, "Calibri", false, false⟩

/-- `part.startsWith('**')`. -/
def startsStars2 (cs : List Char) : Bool := cs.take 2 == ['*', '*']

/-- `parseInline(text, opts)` (source lines 65-108): split on bold
delimiters first; inside non-bold pieces split on italic delimiters;
shape-check every piece the way the source does (`startsWith`/`endsWith`/
length), emitting no run for empty pieces. -/
def parseInline (text : String) (opts : InlineOpts) : List TextRun :=
  (splitBold text.toList).flatMap (fun part =>
    if startsStars2 part && startsStars2 part.reverse && decide (4 < part.length) then
      [⟨String.mk (sliceDrop part 2 2), true, opts.italic, opts.color, opts.size, opts.font⟩]
    else
      (splitItalic part).flatMap (fun sub =>
        if sub.take 1 == ['*'] && sub.reverse.take 1 == ['*'] && decide (2 < sub.length) then
          [⟨String.mk (sliceDrop sub 1 1), opts.bold, true, opts.color, opts.size, opts.font⟩]
        else if sub.isEmpty then []
        else [⟨String.mk sub, opts.bold, opts.italic, opts.color, opts.size, opts.font⟩]))

/-! ## stripMd (source lines 213-215) -/

/-- Fueled global replace of `\*\*([^*]+)\*\*` by its inner text. -/
def replaceBoldF : Nat → List Char → List Char
  | 0, cs => cs
  | fuel + 1, cs =>
    match findBold cs with
    | none => cs
    | some (pre, run, post) => pre ++ run ++ replaceBoldF fuel post

/-- Fueled global replace of `\*([^*]+)\*` by its inner text. -/
def replaceItalicF : Nat → List Char → List Char
  | 0, cs => cs
  | fuel + 1, cs =>
    match findItalic cs with
    | none => cs
    | some (pre, run, post) => pre ++ run ++ replaceItalicF fuel post

/-- `stripMd(text)`: drop `**`/`*` emphasis markers, then trim. -/
def stripMd (s : String) : String :=
  let cs := s.toList
  String.mk (trimChars (replaceItalicF cs.length (replaceBoldF cs.length cs)))

/-! ## Markdown table parser (source lines 221-244) -/

/-- Character class of the separator-row regex `/^\|[-:\s|]+\|$/`. -/
def isSepChar (c : Char) : Bool := c == '-' || c == ':' || c.isWhitespace || c == '|'

/-- The separator-row test `/^\|[-:\s|]+\|$/`: a `|`, at least one
character from `[-:\s|]`, and a closing `|`.  Since `|` itself belongs to
the class, this is: length at least 3, first and last characters `|`, and
every character in the class. -/
def isSeparatorRow (s : String) : Bool :=
  let cs := s.toList
  decide (3 ≤ cs.length) && cs.head? == some '|' && cs.getLast? == some '|' &&
    cs.all isSepChar

/-- Cells of one table line: split on `|`, drop the outer empty pieces
(JavaScript `.slice(1, -1)`), trim each cell. -/
def tableCells (trimmed : String) : List String :=
  (((jsSplit trimmed "|").drop 1).dropLast).map jsTrim

/-- One step of `parseMarkdownTable`'s loop over the buffered lines:
ignore lines not starting with `|` and separator rows; the first
cell-producing line becomes the headers (the `headers.length === 0`
test), later ones become data rows. -/
def parseTableStep (acc : List String × List (List String)) (line : String) :
    List String × List (List String) :=
  let trimmed := jsTrim line
  if !(jsStarts trimmed "|") then acc
  else if isSeparatorRow trimmed then acc
  else
    let cells := tableCells trimmed
    if acc.1.isEmpty then (acc.1 ++ cells, acc.2) else (acc.1, acc.2 ++ [cells])

/-- Result of `parseMarkdownTable` (source line 243). -/
structure ParsedTable where
  headers : List String
  rows : List (List String)
  isInfoTable : Bool
deriving DecidableEq, Repr

/-- `parseMarkdownTable(tableLines)` (source lines 221-244).  A table is
an info table iff it has exactly two headers, both empty. -/
def parseMarkdownTable (tableLines : List String) : ParsedTable :=
  let p := tableLines.foldl parseTableStep ([], [])
  ⟨p.1, p.2, p.1.length == 2 && p.1.all (fun h => h == "")⟩

/-! ## Row and cell builders (source lines 113-143, 249-316) -/

/-- A docx `TableCell` as the brand-table builders construct it: the cell
paragraph's runs, the declared width (DXA), and the background fill. -/
structure BrandCell where
  runs : List TextRun
  width : Nat
  bg : String
deriving DecidableEq, Repr

/-- `createHeaderRow(headers, colWidths, bgColor)` (source lines 113-125):
one cell per header, bold white Calibri 20 text on the header color. -/
def createHeaderRow (headers : List String) (colWidths : List Nat) (bgColor : String) :
    List BrandCell :=
  headers.mapIdx (fun i h =>
    ⟨[⟨stripMd h, true, false, WHITE, 20, "Calibri"⟩], colWidths.getD i 0, bgColor⟩)

/-- JavaScript `colWidths[i] || 2000`: an absent or zero width falls back
to 2000. -/
def widthOr2000 (w : Option Nat) : Nat :=
  match w with
  | none => 2000
  | some v => if v = 0 then 2000 else v

/-- `createDataRow(cells, colWidths, options)` (source lines 130-143):
one cell per value, inline-tokenized at size 20 in the text color. -/
def createDataRow (cells : List String) (colWidths : List Nat)
    (bgColor textColor : String) : List BrandCell :=
  cells.mapIdx (fun i cell =>
    ⟨parseInline (stripMd cell) ⟨textColor, 20, "Calibri", false, false⟩,
      widthOr2000 colWidths[i]?, bgColor⟩)

/-! ## Callout box builder (source lines 148-208) -/

/-- One paragraph inside the callout box: its spacing, whether it is an
indented bullet line, and its runs. -/
structure CalloutPara where
  spacingBefore : Nat
  spacingAfter : Nat
  indented : Bool
  runs : List TextRun
deriving DecidableEq, Repr

/-- The headline paragraph of a callout: bold Neon Green Bebas Neue 26. -/
def calloutHeadPara (headline : String) : CalloutPara :=
  ⟨160, 80, false, [⟨headline, true, false, NEON_GREEN, 26, "Bebas Neue"⟩]⟩

/-- A non-blank callout body line (source lines 166-188): an optional
Neon Green bullet glyph, then bold spans in Neon Green and plain spans in
white (the palette inversion from normal body text). -/
def calloutBodyPara (line : String) : CalloutPara :=
  let isBullet := jsStarts line "- "
  let raw := if isBullet then jsDrop line 2 else line
  let glyph : List TextRun :=
    if isBullet then [⟨"• ", false, false, NEON_GREEN, 20, "Calibri"⟩] else []
  let spans := (splitBold raw.toList).flatMap (fun part =>
    if startsStars2 part && startsStars2 part.reverse && decide (4 < part.length) then
      [⟨String.mk (sliceDrop part 2 2), true, false, NEON_GREEN, 20, "Calibri"⟩]
    else if part.isEmpty then []
    else [⟨String.mk part, false, false, WHITE, 20, "Calibri"⟩])
  ⟨40, 40, isBullet, glyph ++ spans⟩

/-- `createCTABox(headline, bodyLines)` (source lines 148-208): headline
paragraph when the headline is non-empty (JavaScript truthiness), one
paragraph per non-blank body line, and `none` when nothing remains
(`children.length === 0`). -/
def createCTABox (headline : String) (bodyLines : List String) :
    Option (List CalloutPara) :=
  let children :=
    (if headline ≠ "" then [calloutHeadPara headline] else []) ++
      bodyLines.flatMap (fun line =>
        if jsTrim line = "" then [] else [calloutBodyPara line])
  if children.isEmpty then none else some children

/-! ## Info and brand table builders (source lines 249-316) -/

/-- `buildInfoTable(rows)` (source lines 249-282): one label/value pair
per row, markdown-stripped; `row[0] || ''` is `getD i ""` since `stripMd`
maps the empty string to itself. -/
def buildInfoTable (rows : List (List String)) : List (String × String) :=
  rows.map (fun row => (stripMd (row.getD 0 ""), stripMd (row.getD 1 "")))

/-- A brand data table: the per-column width list and the rows (header
row first). -/
structure BrandTable where
  colWidths : List Nat
  rows : List (List BrandCell)
deriving DecidableEq, Repr

/-- Total table width in DXA (source line 291). -/
def totalWidth : Nat := 9360

/-- `buildBrandTable(headers, rows, headerColor)` (source lines 287-316):
`null` for empty headers; column widths by integer division with the last
column absorbing the remainder; header row, then data rows padded with
empty cells up to the header count, zebra-striped by row parity. -/
def buildBrandTable (headers : List String) (rows : List (List String))
    (headerColor : String) : Option BrandTable :=
  if headers.isEmpty then none
  else
    let colWidth := totalWidth / headers.length
    let colWidths := headers.mapIdx (fun i _ =>
      if i = headers.length - 1 then totalWidth - colWidth * (headers.length - 1)
      else colWidth)
    let headerRow := createHeaderRow headers colWidths headerColor
    let dataRows := rows.mapIdx (fun idx row =>
      let bg := if idx % 2 = 1 then LIGHT_GRAY else WHITE
      let padded := row ++ List.replicate (headers.length - row.length) ""
      createDataRow padded colWidths bg BLACK)
    some ⟨colWidths, headerRow :: dataRows⟩

/-! ## Block scanner (source lines 322-569) -/

/-- The scanner's document-level parse state (source lines 326-331). -/
structure ScanState where
  inCover : Bool
  coverH1Done : Bool
  coverSubtitleDone : Bool
  h2Count : Nat
deriving DecidableEq, Repr

/-- Initial scanner state: cover mode on, nothing emitted, no H2 seen. -/
def initState : ScanState := ⟨true, false, false, 0⟩

/-- A block-level document node, one constructor per construction site in
`renderMarkdown`:
* `pageBreakPara` — the `[COVER_END]` page break (line 344);
* `spacer b a` — an empty paragraph with spacing `{before: b, after: a}`
  (`addSpacer` at lines 333-335, and the blank-line paragraph at line 538,
  which is `spacer 0 60`);
* `ctaBox` — the callout table (line 380);
* `infoTable` — the label/value metadata table (line 396);
* `brandTable` — the colored-header data grid (line 402);
* `coverTitle1 t` — cover split line 1: centered bold Electric Blue 48
  Bebas Neue (lines 419-429);
* `coverTitle2 t` — cover split line 2: centered bold Dark Blue 76 Bebas
  Neue (lines 432-442);
* `bodyH1` — standard H1, bold Dark Blue 40 Bebas Neue (lines 445-455);
* `h2Heading t c` — H2 in the alternation color `c` (lines 466-476);
* `h3Heading` — H3, bold black Bebas Neue 26 (lines 483-493);
* `bulletItem` / `numberedItem` — list paragraphs (lines 500-505, 513-518);
* `hrule` — the empty paragraph with an Electric Blue bottom border
  (lines 525-531);
* `coverSubtitle t` — centered italic medium-gray 26 (lines 547-557);
* `bodyPara` — a regular body paragraph (lines 560-563). -/
inductive Element where
  | pageBreakPara : Element
  | spacer (before after : Nat) : Element
  | ctaBox (children : List CalloutPara) : Element
  | infoTable (rows : List (String × String)) : Element
  | brandTable (t : BrandTable) : Element
  | coverTitle1 (text : String) : Element
  | coverTitle2 (text : String) : Element
  | bodyH1 (text : String) : Element
  | h2Heading (text : String) (color : String) : Element
  | h3Heading (text : String) : Element
  | bulletItem (runs : List TextRun) : Element
  | numberedItem (runs : List TextRun) : Element
  | hrule : Element
  | coverSubtitle (text : String) : Element
  | bodyPara (runs : List TextRun) : Element
deriving DecidableEq, Repr

/-- `if (box) elements.push(box)` (source line 380): the box element, or
nothing when the builder returned `null`. -/
def boxElems (headline : String) (bodyLines : List String) : List Element :=
  match createCTABox headline bodyLines with
  | none => []
  | some c => [Element.ctaBox c]

/-- Predicate of the blockquote collection loop (source line 363). -/
def isQuoteLine (l : String) : Bool := jsStarts (jsTrim l) "> "

/-- Predicate of the table collection loop (source line 388). -/
def isPipeLine (l : String) : Bool := jsStarts (jsTrim l) "|"

/-- The headline test `/^\*\*[^*]+\*\*$/` (source line 371): the whole
line is a single bold span with non-empty star-free content. -/
def fullBoldLine (s : String) : Bool :=
  let cs := s.toList
  decide (4 < cs.length) && cs.take 2 == ['*', '*'] && cs.reverse.take 2 == ['*', '*'] &&
    (sliceDrop cs 2 2).all (fun c => c != '*')

/-- Split the collected callout lines into headline and body (source
lines 369-376): the first line is the headline iff it is entirely bold,
in which case the stars are stripped from it. -/
def calloutOfRun (consumed : List String) : String × List String :=
  let calloutLines := consumed.map (fun l => jsTrim (jsDrop (jsTrim l) 2))
  match calloutLines with
  | [] => ("", [])
  | c0 :: cs =>
    if fullBoldLine c0 then (String.mk (sliceDrop c0.toList 2 2), cs)
    else ("", c0 :: cs)

/-- The numbered-list test `^(\d+)\.\s` (source line 511): a non-empty
maximal digit run, a dot, and a whitespace character. -/
def numListShape (line : String) : Bool :=
  let rest := line.toList.dropWhile Char.isDigit
  !(line.toList.takeWhile Char.isDigit).isEmpty &&
    match rest with
    | '.' :: w :: _ => w.isWhitespace
    | _ => false

/-- `line.replace(/^\d+\.\s/, '').trim()` (source line 517): used only
when `numListShape` holds, so the first arm always fires. -/
def numListRest (line : String) : String :=
  match line.toList.dropWhile Char.isDigit with
  | '.' :: _ :: rest => jsTrim (String.mk rest)
  | _ => jsTrim line

/-- The status-scaffolding test on a blockquote line (source lines
354-356): the quote content `trimmed.slice(2).trim()` starts with one of
the known progress verbs. -/
def statusLine (line : String) : Bool :=
  STATUS_MARKERS.any (fun pfx => jsStarts (jsTrim (jsDrop (jsTrim line) 2)) pfx)

/-- Elements emitted for one blockquote run (source lines 361-382): a
spacer `(80, 0)`, the callout box if the builder produced one, and a
spacer `(0, 120)`; the run is the current line plus all immediately
following quote lines. -/
def quoteElems (line : String) (rest : List String) : List Element :=
  let hb := calloutOfRun (line :: rest.takeWhile isQuoteLine)
  Element.spacer 80 0 :: (boxElems hb.1 hb.2 ++ [Element.spacer 0 120])

/-- The table-dispatch test (source line 386): a pipe-starting trimmed
line that is not itself a pure separator row. -/
def tableStart (line : String) : Bool :=
  jsStarts (jsTrim line) "|" && !isSeparatorRow (jsTrim line)

/-- Elements emitted for one table run (source lines 387-405): the info
table, or the brand table under the `h2Count`-parity header color, each
followed by a spacer `(0, 120)`; nothing for a parse with no headers. -/
def tableElems (line : String) (rest : List String) (st : ScanState) : List Element :=
  let pt := parseMarkdownTable (line :: rest.takeWhile isPipeLine)
  if pt.isInfoTable then
    [Element.infoTable (buildInfoTable pt.rows), Element.spacer 0 120]
  else if 0 < pt.headers.length then
    let headerColor := if st.h2Count % 2 = 1 then DARK_BLUE else ELECTRIC_BLUE
    match buildBrandTable pt.headers pt.rows headerColor with
    | some t => [Element.brandTable t, Element.spacer 0 120]
    | none => []
  else []

/-- The cover-split test for an H1 (source line 413): cover mode, cover
title not yet emitted, and the title contains the delimiter. -/
def h1Split (line : String) (st : ScanState) : Bool :=
  st.inCover && !st.coverH1Done &&
    containsSeq " & ".toList (jsTrim (jsDrop line 2)).toList

/-- Elements for an H1 line (source lines 410-456): the two-line cover
split (`title.split(' & ', 2)`, i.e. the first two split segments), or a
standard body H1. -/
def h1Elems (line : String) (st : ScanState) : List Element :=
  let title := jsTrim (jsDrop line 2)
  if h1Split line st then
    let parts := jsSplit title " & "
    [Element.coverTitle1 (parts.getD 0 ""),
     Element.coverTitle2 ("& " ++ parts.getD 1 "")]
  else [Element.bodyH1 title]

/-- State after an H1 line: the cover-title flag is set iff the split
fired (source line 415). -/
def h1State (line : String) (st : ScanState) : ScanState :=
  if h1Split line st then { st with coverH1Done := true } else st

/-- The Dark Blue / Electric Blue alternation on the H2 count (source
lines 399, 465). -/
def h2Color (n : Nat) : String := if n % 2 = 1 then DARK_BLUE else ELECTRIC_BLUE

/-- The cover-subtitle test in the fallback branch (source line 544). -/
def subtitleCase (st : ScanState) : Bool :=
  st.inCover && st.coverH1Done && !st.coverSubtitleDone

/-- The main scanner loop of `renderMarkdown` (source lines 337-566),
fueled: each iteration consumes at least the current line, so fuel equal
to the number of lines is sufficient and the fuel-zero branch is
unreachable from `renderMarkdown`.  The branches appear in the source's
precedence order. -/
def renderLinesF : Nat → List String → ScanState → List Element
  | _, [], _ => []
  | 0, _ :: _, _ => []
  | fuel + 1, line :: rest, st =>
    if jsTrim line = "[COVER_END]" then
      Element.pageBreakPara :: renderLinesF fuel rest { st with inCover := false }
    else if jsStarts (jsTrim line) "> " then
      if statusLine line then renderLinesF fuel rest st
      else quoteElems line rest ++ renderLinesF fuel (rest.dropWhile isQuoteLine) st
    else if tableStart line then
      tableElems line rest st ++ renderLinesF fuel (rest.dropWhile isPipeLine) st
    else if jsStarts line "# " then
      h1Elems line st ++ renderLinesF fuel rest (h1State line st)
    else if jsStarts line "## " then
      Element.h2Heading (jsTrim (jsDrop line 3)) (h2Color (st.h2Count + 1)) ::
        renderLinesF fuel rest { st with inCover := false, h2Count := st.h2Count + 1 }
    else if jsStarts line "### " then
      Element.h3Heading (jsTrim (jsDrop line 4)) :: renderLinesF fuel rest st
    else if jsStarts line "- " || jsStarts line "* " then
      Element.bulletItem (parseInline (jsTrim (jsDrop line 2)) bodyOpts) ::
        renderLinesF fuel rest st
    else if numListShape line then
      Element.numberedItem (parseInline (numListRest line) bodyOpts) ::
        renderLinesF fuel rest st
    else if jsTrim line = "---" then
      Element.hrule :: renderLinesF fuel rest st
    else if jsTrim line = "" then
      Element.spacer 0 60 :: renderLinesF fuel rest st
    else if subtitleCase st then
      Element.coverSubtitle (jsTrim line) ::
        renderLinesF fuel rest { st with coverSubtitleDone := true }
    else
      Element.bodyPara (parseInline (jsTrim line) bodyOpts) :: renderLinesF fuel rest st

/-- `renderMarkdown(content)` (source lines 322-569): split on newlines
and run the scanner from the initial state. -/
def renderMarkdown (content : String) : List Element :=
  let lines := jsSplit content "\n"
  renderLinesF lines.length lines initState

/-- A line that triggers none of the scanner's recognized block markers:
not the cover-end sentinel, not a blockquote, not a table pipe, not an
H1/H2/H3, not a bullet, not a numbered item, and not a horizontal rule.
Such a line always falls through to the blank-line or body-text branch. -/
def noBlockMarker (line : String) : Prop :=
  jsTrim line ≠ "[COVER_END]" ∧
  jsStarts (jsTrim line) "> " = false ∧
  jsStarts (jsTrim line) "|" = false ∧
  jsStarts line "# " = false ∧
  jsStarts line "## " = false ∧
  jsStarts line "### " = false ∧
  jsStarts line "- " = false ∧
  jsStarts line "* " = false ∧
  numListShape line = false ∧
  jsTrim line ≠ "---"

instance (line : String) : Decidable (noBlockMarker line) := by
  unfold noBlockMarker
  infer_instance

/-- Recognizer for the first line of a cover-title split (the Electric
Blue 48 centered paragraph, emitted only by the split branch). -/
def isCoverSplitElem : Element → Bool
  | Element.coverTitle1 _ => true
  | _ => false

/-- How many cover-title splits a node list contains. -/
def countCoverSplits (es : List Element) : Nat := es.countP isCoverSplitElem

/-! ## General helper lemmas -/

theorem mk_toList (s : String) : String.mk s.toList = s := rfl

theorem infoFlag_iff (hs : List String) :
    (hs.length == 2 && hs.all (fun h => h == "")) = true ↔ hs = ["", ""] := by
  match hs with
  | [] => simp
  | [a] => simp
  | [a, b] => simp [List.all_cons, and_comm]
  | a :: b :: c :: t => simp [List.length_cons]

theorem sum_map_range_const (m q : Nat) (f : Nat → Nat) (hf : ∀ i, i < m → f i = q) :
    ((List.range m).map f).sum = m * q := by
  induction m with
  | zero => simp
  | succ n ih =>
    rw [List.range_succ, List.map_append, List.sum_append,
      ih (fun i hi => hf i (Nat.lt_succ_of_lt hi))]
    simp [hf n (Nat.lt_succ_self n), Nat.succ_mul]

theorem mapIdx_ignore {α β : Type} (g : Nat → β) (l : List α) :
    l.mapIdx (fun i _ => g i) = (List.range l.length).map g := by
  induction l using List.list_reverse_induction with
  | base => simp
  | ind l e ih =>
    rw [List.mapIdx_append_one, ih]
    simp [List.range_succ]

theorem mem_mapIdx_imp {α β : Type} {l : List α} {f : Nat → α → β} {x : β}
    (h : x ∈ l.mapIdx f) : ∃ i : Fin l.length, x = f i (l.get i) := by
  rw [List.mapIdx_eq_ofFn] at h
  obtain ⟨i, hi⟩ := (List.mem_ofFn _ _).mp h
  exact ⟨i, hi.symm⟩

theorem brandWidths_sum (m : Nat) :
    ((List.range (m + 1)).map (fun i =>
      if i = m then totalWidth - totalWidth / (m + 1) * m else totalWidth / (m + 1))).sum
      = totalWidth := by
  rw [List.range_succ, List.map_append, List.sum_append,
    sum_map_range_const m (totalWidth / (m + 1)) _
      (fun i hi => if_neg (Nat.ne_of_lt hi))]
  have h1 : totalWidth / (m + 1) * (m + 1) ≤ totalWidth := Nat.div_mul_le_self _ _
  have h2 : totalWidth / (m + 1) * m ≤ totalWidth / (m + 1) * (m + 1) :=
    Nat.mul_le_mul_left _ (Nat.le_succ m)
  have h3 : m * (totalWidth / (m + 1)) = totalWidth / (m + 1) * m := Nat.mul_comm _ _
  simp only [List.map_cons, List.map_nil, List.sum_cons, List.sum_nil,
    eq_self_iff_true, if_true]
  omega

theorem findBold_no_star (cs : List Char) (h : ∀ c ∈ cs, c ≠ '*') :
    findBold cs = none := by
  induction cs with
  | nil => rfl
  | cons c rest ih =>
    have hc : c ≠ '*' := h c (List.mem_cons_self _ _)
    have h1 : tryBoldAt (c :: rest) = none := by
      unfold tryBoldAt
      split
      · rename_i r heq
        injection heq with hx
        exact absurd hx hc
      · rfl
    unfold findBold
    simp only [h1, ih (fun x hx => h x (List.mem_cons_of_mem _ hx))]

theorem findItalic_no_star (cs : List Char) (h : ∀ c ∈ cs, c ≠ '*') :
    findItalic cs = none := by
  induction cs with
  | nil => rfl
  | cons c rest ih =>
    have hc : c ≠ '*' := h c (List.mem_cons_self _ _)
    have h1 : tryItalicAt (c :: rest) = none := by
      unfold tryItalicAt
      split
      · rename_i r heq
        injection heq with hx
        exact absurd hx hc
      · rfl
    unfold findItalic
    simp only [h1, ih (fun x hx => h x (List.mem_cons_of_mem _ hx))]

theorem splitBoldF_none (fuel : Nat) (cs : List Char) (h : findBold cs = none) :
    splitBoldF fuel cs = [cs] := by
  cases fuel with
  | zero => rfl
  | succ n =>
    unfold splitBoldF
    simp only [h]

theorem splitItalicF_none (fuel : Nat) (cs : List Char) (h : findItalic cs = none) :
    splitItalicF fuel cs = [cs] := by
  cases fuel with
  | zero => rfl
  | succ n =>
    unfold splitItalicF
    simp only [h]

theorem startsStars2_no_star {cs : List Char} (h : ∀ c ∈ cs, c ≠ '*') :
    startsStars2 cs = false := by
  unfold startsStars2
  cases cs with
  | nil => rfl
  | cons c rest =>
    have hc : c ≠ '*' := h c (List.mem_cons_self _ _)
    cases rest with
    | nil => simp [List.take, hc]
    | cons d r => simp [List.take, hc]

theorem take1_no_star {cs : List Char} (h : ∀ c ∈ cs, c ≠ '*') :
    (cs.take 1 == ['*']) = false := by
  cases cs with
  | nil => rfl
  | cons c rest =>
    have hc : c ≠ '*' := h c (List.mem_cons_self _ _)
    simp [List.take, hc]

/-- One unfolding of the scanner loop on a non-empty line list, stated
once so the per-branch theorems below can rewrite with it. -/
theorem renderLinesF_cons (fuel : Nat) (line : String) (rest : List String)
    (st : ScanState) :
    renderLinesF (fuel + 1) (line :: rest) st =
      (if jsTrim line = "[COVER_END]" then
        Element.pageBreakPara :: renderLinesF fuel rest { st with inCover := false }
      else if jsStarts (jsTrim line) "> " then
        if statusLine line then renderLinesF fuel rest st
        else quoteElems line rest ++ renderLinesF fuel (rest.dropWhile isQuoteLine) st
      else if tableStart line then
        tableElems line rest st ++ renderLinesF fuel (rest.dropWhile isPipeLine) st
      else if jsStarts line "# " then
        h1Elems line st ++ renderLinesF fuel rest (h1State line st)
      else if jsStarts line "## " then
        Element.h2Heading (jsTrim (jsDrop line 3)) (h2Color (st.h2Count + 1)) ::
          renderLinesF fuel rest { st with inCover := false, h2Count := st.h2Count + 1 }
      else if jsStarts line "### " then
        Element.h3Heading (jsTrim (jsDrop line 4)) :: renderLinesF fuel rest st
      else if jsStarts line "- " || jsStarts line "* " then
        Element.bulletItem (parseInline (jsTrim (jsDrop line 2)) bodyOpts) ::
          renderLinesF fuel rest st
      else if numListShape line then
        Element.numberedItem (parseInline (numListRest line) bodyOpts) ::
          renderLinesF fuel rest st
      else if jsTrim line = "---" then
        Element.hrule :: renderLinesF fuel rest st
      else if jsTrim line = "" then
        Element.spacer 0 60 :: renderLinesF fuel rest st
      else if subtitleCase st then
        Element.coverSubtitle (jsTrim line) ::
          renderLinesF fuel rest { st with coverSubtitleDone := true }
      else
        Element.bodyPara (parseInline (jsTrim line) bodyOpts) ::
          renderLinesF fuel rest st) := rfl

/-! ## Claim theorems -/

/-- C1: a parsed pipe-delimited table is reported as an info table
exactly when its header row consists of two empty cells; any other header
list (in particular any non-empty one) yields `isInfoTable = false`. -/
theorem c1_info_table_iff (tableLines : List String) :
    (parseMarkdownTable tableLines).isInfoTable = true ↔
      (parseMarkdownTable tableLines).headers = ["", ""] :=
  infoFlag_iff _

/-- C4 counterexample: the claim that every row of a brand table has
exactly `colWidths.length` cells fails when a data row is longer than the
header row — `buildBrandTable` pads short rows but never truncates long
ones, so the table built from one header and the data row `["b", "c"]`
has a two-cell row against a one-entry width list. -/
theorem c4_counterexample :
    ∃ t, buildBrandTable ["a"] [["b", "c"]] ELECTRIC_BLUE = some t ∧
      ∃ row ∈ t.rows, row.length ≠ t.colWidths.length :=
  ⟨_, rfl, by decide⟩

/-- C4 (amended): in every brand table whose data rows are no longer than
the header row, every table row — the header row and every (padded) data
row — has exactly `colWidths.length` cells, and no error is raised for a
short row. -/
theorem c4_rows_padded (headers : List String) (rows : List (List String))
    (headerColor : String) (t : BrandTable)
    (h : buildBrandTable headers rows headerColor = some t)
    (hshort : ∀ r ∈ rows, r.length ≤ headers.length) :
    ∀ row ∈ t.rows, row.length = t.colWidths.length := by
  cases headers with
  | nil => simp [buildBrandTable] at h
  | cons a hs =>
    rw [buildBrandTable] at h
    simp only [List.isEmpty_cons, Bool.false_eq_true, if_false, Option.some.injEq] at h
    subst h
    intro row hrow
    simp only [List.length_mapIdx]
    rcases List.mem_cons.mp hrow with h1 | h2
    · subst h1
      rw [createHeaderRow, List.length_mapIdx]
    · obtain ⟨i, hi⟩ := mem_mapIdx_imp h2
      subst hi
      rw [createDataRow, List.length_mapIdx, List.length_append, List.length_replicate]
      have hle := hshort (rows.get i) (List.get_mem rows i.1 i.2)
      simp only [List.length_cons] at hle ⊢
      omega

/-- C4 witness: a three-column table with one two-cell data row builds
without error and every row has exactly three cells. -/
theorem c4_witness :
    ∃ t, buildBrandTable ["a", "b", "c"] [["1", "2"]] DARK_BLUE = some t ∧
      ∀ row ∈ t.rows, row.length = t.colWidths.length :=
  ⟨_, rfl, c4_rows_padded ["a", "b", "c"] [["1", "2"]] DARK_BLUE _ rfl (by decide)⟩

/-- C5: for every brand table that is actually built (so with at least
one column), the per-column widths sum to the total width of 9360 DXA
exactly; each column gets `⌊9360 / N⌋` and the last column absorbs the
remainder. -/
theorem c5_brand_widths_sum (headers : List String) (rows : List (List String))
    (headerColor : String) (t : BrandTable)
    (h : buildBrandTable headers rows headerColor = some t) :
    t.colWidths.sum = totalWidth := by
  cases headers with
  | nil => simp [buildBrandTable] at h
  | cons a hs =>
    rw [buildBrandTable] at h
    simp only [List.isEmpty_cons, Bool.false_eq_true, if_false, Option.some.injEq] at h
    subst h
    show ((a :: hs).mapIdx _).sum = totalWidth
    rw [mapIdx_ignore]
    simpa using brandWidths_sum hs.length

/-- C5 witness: a one-column brand table gets the single width 9360. -/
theorem c5_witness :
    ∃ t, buildBrandTable ["a"] [] ELECTRIC_BLUE = some t ∧ t.colWidths.sum = totalWidth :=
  ⟨_, rfl, c5_brand_widths_sum ["a"] [] ELECTRIC_BLUE _ rfl⟩

/-- C6 counterexample: the empty string contains no `*`, yet `parseInline`
returns no run at all for it (empty segments produce no run), not the
single run the claim asserts for every star-free input. -/
theorem c6_counterexample : (parseInline "" bodyOpts).length ≠ 1 := by decide

/-- C6 (amended): for every non-empty input containing no `*` character,
`parseInline` returns exactly one run whose text is the input and whose
bold/italic/color/size/font attributes are the caller's base style,
unchanged. -/
theorem c6_no_star_single_run (text : String) (opts : InlineOpts)
    (hne : text ≠ "") (hstar : ∀ c ∈ text.toList, c ≠ '*') :
    parseInline text opts =
      [⟨text, opts.bold, opts.italic, opts.color, opts.size, opts.font⟩] := by
  have hnil : text.toList ≠ [] := by
    intro hh
    apply hne
    rw [← mk_toList text, hh]
  unfold parseInline
  rw [splitBold, splitBoldF_none _ _ (findBold_no_star _ hstar)]
  rw [List.flatMap_cons, List.flatMap_nil, List.append_nil]
  rw [startsStars2_no_star hstar, Bool.false_and]
  rw [if_neg (by simp)]
  rw [splitItalic, splitItalicF_none _ _ (findItalic_no_star _ hstar)]
  rw [List.flatMap_cons, List.flatMap_nil, List.append_nil]
  rw [take1_no_star hstar, Bool.false_and]
  rw [if_neg (by simp)]
  rw [if_neg (by simpa [List.isEmpty_iff] using hnil)]
  rw [mk_toList]

/-- C6 witness: `"hello"` has no stars and tokenizes to the single
base-styled run `"hello"`. -/
theorem c6_witness :
    parseInline "hello" bodyOpts =
      [⟨"hello", false, false, BLACK, 22, "Calibri"⟩] :=
  c6_no_star_single_run "hello" bodyOpts (by decide) (by decide)

/-- C9: with no headline (the empty string, falsy in the source) and
every body line blank, the callout builder returns `null` rather than
raising, and the scanner pushes no box element for that position. -/
theorem c9_empty_callout (bodyLines : List String)
    (h : ∀ l ∈ bodyLines, jsTrim l = "") :
    createCTABox "" bodyLines = none ∧ boxElems "" bodyLines = [] := by
  have hflat : bodyLines.flatMap
      (fun line => if jsTrim line = "" then [] else [calloutBodyPara line]) = [] := by
    induction bodyLines with
    | nil => rfl
    | cons a t ih =>
      rw [List.flatMap_cons, if_pos (h a (List.mem_cons_self _ _)), List.nil_append]
      exact ih (fun l hl => h l (List.mem_cons_of_mem a hl))
  have hc : createCTABox "" bodyLines = none := by
    simp [createCTABox, hflat]
  refine ⟨hc, ?_⟩
  unfold boxElems
  rw [hc]

/-- C9 witness: a callout with no headline and only blank body lines
builds to `none` and contributes no box element. -/
theorem c9_witness : createCTABox "" ["", "   "] = none ∧ boxElems "" ["", "   "] = [] :=
  c9_empty_callout ["", "   "] (by decide)

/-- C2 counterexample: for the cover H1 `# A & B & C`, JavaScript
`split(' & ', 2)` truncates to the first two segments, so the second
cover line is `& B` — not `& B & C`, the entire remainder the claim
asserts. -/
theorem c2_counterexample :
    renderMarkdown "# A & B & C" ≠
      [Element.coverTitle1 "A", Element.coverTitle2 "& B & C"] := by decide

/-- C2 (amended): for every H1 line reached in cover mode with the cover
title not yet emitted and the delimiter present in the title, the scanner
emits exactly two centered title lines — part 1 is the first
`' & '`-split segment, and part 2 is the second split segment with the
delimiter re-prefixed (the remainder of the title only when there is a
single delimiter; text after a second delimiter is dropped) — then
continues with the cover-title flag set. -/
theorem c2_cover_split (fuel : Nat) (line : String) (rest : List String)
    (st : ScanState)
    (hce : jsTrim line ≠ "[COVER_END]")
    (hq : jsStarts (jsTrim line) "> " = false)
    (htb : tableStart line = false)
    (hh1 : jsStarts line "# " = true)
    (hcov : st.inCover = true)
    (hdone : st.coverH1Done = false)
    (hamp : containsSeq " & ".toList (jsTrim (jsDrop line 2)).toList = true) :
    renderLinesF (fuel + 1) (line :: rest) st =
      Element.coverTitle1 ((jsSplit (jsTrim (jsDrop line 2)) " & ").getD 0 "") ::
        Element.coverTitle2 ("& " ++ (jsSplit (jsTrim (jsDrop line 2)) " & ").getD 1 "") ::
          renderLinesF fuel rest { st with coverH1Done := true } := by
  have hsplit : h1Split line st = true := by
    unfold h1Split
    rw [hcov, hdone, hamp]
    rfl
  rw [renderLinesF_cons]
  rw [if_neg hce, if_neg (by simp [hq]), if_neg (by simp [htb]), if_pos hh1]
  simp [h1Elems, h1State, hsplit]

/-- C2 witness: `# Hello & World` in the initial state renders the two
cover title lines `Hello` and `& World`. -/
theorem c2_witness :
    renderLinesF 1 ["# Hello & World"] initState =
      [Element.coverTitle1 "Hello", Element.coverTitle2 "& World"] :=
  (c2_cover_split 0 "# Hello & World" [] initState (by decide) (by decide) (by decide)
    (by decide) rfl rfl (by decide)).trans (by decide)

/-- C3 counterexample: `----` consists solely of four hyphens and matches
no earlier-precedence rule, yet the scanner renders it as a body
paragraph — the source compares against exactly `---`, so no bordered
horizontal-rule paragraph is emitted. -/
theorem c3_counterexample : renderMarkdown "----" ≠ [Element.hrule] := by decide

/-- C3 (amended): for every line whose trim is exactly `---` (three
hyphens, not three-or-more) and that matches no earlier-precedence rule,
the scanner emits exactly one empty paragraph carrying only the accent
bottom border, then moves to the next line. -/
theorem c3_hrule_exact (fuel : Nat) (line : String) (rest : List String)
    (st : ScanState)
    (hce : jsTrim line ≠ "[COVER_END]")
    (hq : jsStarts (jsTrim line) "> " = false)
    (htb : tableStart line = false)
    (hh1 : jsStarts line "# " = false)
    (hh2 : jsStarts line "## " = false)
    (hh3 : jsStarts line "### " = false)
    (hb1 : jsStarts line "- " = false)
    (hb2 : jsStarts line "* " = false)
    (hnum : numListShape line = false)
    (hd : jsTrim line = "---") :
    renderLinesF (fuel + 1) (line :: rest) st =
      Element.hrule :: renderLinesF fuel rest st := by
  rw [renderLinesF_cons]
  rw [if_neg hce, if_neg (by simp [hq]), if_neg (by simp [htb]), if_neg (by simp [hh1]),
    if_neg (by simp [hh2]), if_neg (by simp [hh3]), if_neg (by simp [hb1, hb2]),
    if_neg (by simp [hnum]), if_pos hd]

/-- C3 witness: the line `---` renders as the single bordered rule
paragraph. -/
theorem c3_witness : renderLinesF 1 ["---"] initState = [Element.hrule] :=
  (c3_hrule_exact 0 "---" [] initState (by decide) (by decide) (by decide) (by decide)
    (by decide) (by decide) (by decide) (by decide) (by decide) (by decide)).trans
    (by decide)

/-- C10: for every blockquote run whose first line is not
status-prefixed, the scanner emits a `(80, 0)` spacer before and a
`(0, 120)` spacer after the callout position unconditionally — when the
builder returns `null`, `boxElems` is empty and the run contributes
exactly the two spacers. -/
theorem c10_callout_spacers (fuel : Nat) (line : String) (rest : List String)
    (st : ScanState)
    (hce : jsTrim line ≠ "[COVER_END]")
    (hq : jsStarts (jsTrim line) "> " = true)
    (hst : statusLine line = false) :
    renderLinesF (fuel + 1) (line :: rest) st =
      Element.spacer 80 0 ::
        (boxElems (calloutOfRun (line :: rest.takeWhile isQuoteLine)).1
            (calloutOfRun (line :: rest.takeWhile isQuoteLine)).2 ++
          Element.spacer 0 120 ::
            renderLinesF fuel (rest.dropWhile isQuoteLine) st) := by
  rw [renderLinesF_cons]
  rw [if_neg hce, if_pos hq, if_neg (by simp [hst])]
  simp [quoteElems]

/-- C10 witness: the one-line run `> hello` contributes the leading
spacer, its callout box, and the trailing spacer. -/
theorem c10_witness :
    renderLinesF 1 ["> hello"] initState =
      [Element.spacer 80 0,
       Element.ctaBox [⟨40, 40, false, [⟨"hello", false, false, WHITE, 20, "Calibri"⟩]⟩],
       Element.spacer 0 120] :=
  (c10_callout_spacers 0 "> hello" [] initState (by decide) (by decide)
    (by decide)).trans (by decide)

theorem renderF_plain (fuel : Nat) (lines : List String) (st : ScanState)
    (hfuel : lines.length ≤ fuel)
    (hdone : st.coverH1Done = false)
    (h : ∀ l ∈ lines, noBlockMarker l) :
    renderLinesF fuel lines st =
      lines.map (fun l =>
        if jsTrim l = "" then Element.spacer 0 60
        else Element.bodyPara (parseInline (jsTrim l) bodyOpts)) := by
  induction fuel generalizing lines st with
  | zero =>
    cases lines with
    | nil => rfl
    | cons a t => simp at hfuel
  | succ n ih =>
    cases lines with
    | nil => rfl
    | cons line rest =>
      obtain ⟨hce, hq, hp, hh1, hh2, hh3, hb1, hb2, hnum, hd⟩ :=
        h line (List.mem_cons_self _ _)
      have hrest : ∀ l ∈ rest, noBlockMarker l := fun l hl =>
        h l (List.mem_cons_of_mem _ hl)
      have hlen : rest.length ≤ n := by simpa using hfuel
      rw [renderLinesF_cons]
      rw [if_neg hce, if_neg (by simp [hq]), if_neg (by simp [tableStart, hp]),
        if_neg (by simp [hh1]), if_neg (by simp [hh2]), if_neg (by simp [hh3]),
        if_neg (by simp [hb1, hb2]), if_neg (by simp [hnum]), if_neg hd]
      by_cases hblank : jsTrim line = ""
      · rw [if_pos hblank, List.map_cons, if_pos hblank, ih rest st hlen hdone hrest]
      · have hsub : subtitleCase st = false := by
          simp [subtitleCase, hdone]
        rw [if_neg hblank, if_neg (by simp [hsub]), List.map_cons, if_neg hblank,
          ih rest st hlen hdone hrest]

theorem countP_boxElems (hl : String) (b : List String) :
    List.countP isCoverSplitElem (boxElems hl b) = 0 := by
  unfold boxElems
  cases createCTABox hl b <;> rfl

theorem countP_quoteElems (line : String) (rest : List String) :
    List.countP isCoverSplitElem (quoteElems line rest) = 0 := by
  simp only [quoteElems]
  rw [List.countP_cons, List.countP_append, countP_boxElems]
  rfl

theorem countP_tableElems (line : String) (rest : List String) (st : ScanState) :
    List.countP isCoverSplitElem (tableElems line rest st) = 0 := by
  simp only [tableElems]
  split_ifs <;> first
    | rfl
    | (split <;> rfl)

theorem countP_h1Elems (line : String) (st : ScanState) :
    List.countP isCoverSplitElem (h1Elems line st) =
      (if h1Split line st then 1 else 0) := by
  simp only [h1Elems]
  split_ifs <;> rfl

theorem renderF_split_count (fuel : Nat) (lines : List String) (st : ScanState) :
    List.countP isCoverSplitElem (renderLinesF fuel lines st) ≤
      (if st.coverH1Done then 0 else 1) := by
  induction fuel generalizing lines st with
  | zero =>
    cases lines with
    | nil => exact Nat.zero_le _
    | cons a t => exact Nat.zero_le _
  | succ n ih =>
    cases lines with
    | nil => exact Nat.zero_le _
    | cons line rest =>
      rw [renderLinesF_cons]
      by_cases hce : jsTrim line = "[COVER_END]"
      · rw [if_pos hce, List.countP_cons_of_neg _ _ Bool.false_ne_true]
        exact ih rest _
      rw [if_neg hce]
      by_cases hq : jsStarts (jsTrim line) "> " = true
      · rw [if_pos hq]
        by_cases hst : statusLine line = true
        · rw [if_pos hst]
          exact ih rest st
        · rw [if_neg hst, List.countP_append, countP_quoteElems]
          simpa using ih (rest.dropWhile isQuoteLine) st
      rw [if_neg hq]
      by_cases htb : tableStart line = true
      · rw [if_pos htb, List.countP_append, countP_tableElems]
        simpa using ih (rest.dropWhile isPipeLine) st
      rw [if_neg htb]
      by_cases hh1 : jsStarts line "# " = true
      · rw [if_pos hh1, List.countP_append, countP_h1Elems]
        unfold h1State
        by_cases hs : h1Split line st = true
        · rw [if_pos hs, if_pos hs]
          have hz : List.countP isCoverSplitElem
              (renderLinesF n rest { st with coverH1Done := true }) ≤ 0 :=
            ih rest { st with coverH1Done := true }
          have hdone : st.coverH1Done = false := by
            cases hcd : st.coverH1Done
            · rfl
            · exfalso
              unfold h1Split at hs
              rw [hcd] at hs
              simp at hs
          rw [hdone, if_neg Bool.false_ne_true]
          omega
        · rw [if_neg hs, if_neg hs]
          simpa using ih rest st
      rw [if_neg hh1]
      by_cases hh2 : jsStarts line "## " = true
      · rw [if_pos hh2, List.countP_cons_of_neg _ _ Bool.false_ne_true]
        exact ih rest _
      rw [if_neg hh2]
      by_cases hh3 : jsStarts line "### " = true
      · rw [if_pos hh3, List.countP_cons_of_neg _ _ Bool.false_ne_true]
        exact ih rest st
      rw [if_neg hh3]
      by_cases hb : (jsStarts line "- " || jsStarts line "* ") = true
      · rw [if_pos hb, List.countP_cons_of_neg _ _ Bool.false_ne_true]
        exact ih rest st
      rw [if_neg hb]
      by_cases hnum : numListShape line = true
      · rw [if_pos hnum, List.countP_cons_of_neg _ _ Bool.false_ne_true]
        exact ih rest st
      rw [if_neg hnum]
      by_cases hd : jsTrim line = "---"
      · rw [if_pos hd, List.countP_cons_of_neg _ _ Bool.false_ne_true]
        exact ih rest st
      rw [if_neg hd]
      by_cases hbl : jsTrim line = ""
      · rw [if_pos hbl, List.countP_cons_of_neg _ _ Bool.false_ne_true]
        exact ih rest st
      rw [if_neg hbl]
      by_cases hsub : subtitleCase st = true
      · rw [if_pos hsub, List.countP_cons_of_neg _ _ Bool.false_ne_true]
        exact ih rest _
      rw [if_neg hsub, List.countP_cons_of_neg _ _ Bool.false_ne_true]
      exact ih rest st


/-- C7: when no input line matches any recognized block marker, every
non-blank line yields exactly one body paragraph and every blank line
exactly one spacer paragraph, so the scanner emits exactly one node per
input line. -/
theorem c7_line_preserving (content : String)
    (h : ∀ l ∈ jsSplit content "\n", noBlockMarker l) :
    renderMarkdown content =
      (jsSplit content "\n").map (fun l =>
        if jsTrim l = "" then Element.spacer 0 60
        else Element.bodyPara (parseInline (jsTrim l) bodyOpts)) ∧
    (renderMarkdown content).length = (jsSplit content "\n").length := by
  have heq := renderF_plain (jsSplit content "\n").length (jsSplit content "\n")
    initState (le_refl _) rfl h
  refine ⟨heq, ?_⟩
  rw [show renderMarkdown content =
    renderLinesF (jsSplit content "\n").length (jsSplit content "\n") initState
    from rfl, heq, List.length_map]

/-- C7 witness: two plain lines around a blank line produce exactly two
body paragraphs around one spacer. -/
theorem c7_witness :
    renderMarkdown "hello\n\nworld" =
      [Element.bodyPara (parseInline "hello" bodyOpts), Element.spacer 0 60,
       Element.bodyPara (parseInline "world" bodyOpts)] :=
  ((c7_line_preserving "hello\n\nworld" (by decide)).1).trans (by decide)

/-- C8: the cover-mode two-line title split occurs at most once per
document: the split branch sets the cover-title flag, the flag is never
cleared, and no other branch emits a split, so the rendered node list
contains at most one split regardless of how many qualifying H1 lines
the input has. -/
theorem c8_split_at_most_once (content : String) :
    countCoverSplits (renderMarkdown content) ≤ 1 := by
  have h := renderF_split_count (jsSplit content "\n").length (jsSplit content "\n")
    initState
  simpa [countCoverSplits, renderMarkdown, initState] using h

end DocxGen
